import Mathlib

/-!
Verification of the example programs in `KenthJohan/ouster_example1`.

The repository contains two example programs built on the Ouster sensor SDK
and the `tigr` windowing library:

* `src/examples/view_tigr/src/view_tigr.cpp` — acquisition thread
  (`render_thread`) batching sensor packets into scans, normalizing one
  channel into a shared RGBA bitmap (`scan_to_bmp`), with a mouse probe
  overlay (`print_range`), and a display loop in `main` blitting the shared
  bitmap under a mutex.
* `src/examples/lidar_view_example/src/lidar_view_example.cpp` — the same
  polling loop feeding a 3D point-cloud visualizer.
* `src/unnamed/part_000` — `tigr_mouse.h`, the `tigr_mouse_t` struct.

This file gives a shallow embedding of the original glue code (the SDK calls
are treated as inputs to each loop iteration) and proves / refutes the frozen
claims about it.  Machine integers are modelled as `Int`/`Nat` with explicit
wrap-around, matching the 32-bit two's-complement arithmetic the C code
performs with `int32_t`.
-/

namespace Ouster

/-! ### 32-bit integer model -/

/-- `INT32_MAX`. -/
def int32Max : Int := 2147483647

/-- `INT32_MIN`. -/
def int32Min : Int := -2147483648

/-- Wrap an integer into the range of `int32_t` (two's-complement
wrap-around, the behavior of 32-bit machine arithmetic). -/
def wrap32 (z : Int) : Int := (z + 2147483648) % 4294967296 - 2147483648

/-- Reinterpret a `uint32_t` value (a natural number, reduced mod `2^32`)
as an `int32_t`, as done by `int32_t value = img(y, x);` where `img` holds
`uint32_t` channel data. -/
def toInt32 (n : Nat) : Int :=
  if (n % 4294967296) < 2147483648 then ((n % 4294967296 : Nat) : Int)
  else ((n % 4294967296 : Nat) : Int) - 4294967296

/-- Conversion of an `int` value to `unsigned char`, as done when assigning
to a pixel component (`bmp->pix[i].r = value;`): reduction mod 256. -/
def toByte (z : Int) : Nat := (z % 256).toNat

/-! ### Pixels, bitmaps, scans, mouse state -/

/-- A `tigr` pixel: `unsigned char r, g, b, a`. -/
structure TPixel where
  r : Nat
  g : Nat
  b : Nat
  a : Nat
deriving DecidableEq, Repr

/-- A `tigr` bitmap: width, height and the pixel array, modelled as a total
map from array index to pixel. -/
structure Tigr where
  w : Nat
  h : Nat
  pix : Nat → TPixel

/-- Write pixel `p` at array index `i` (`bmp->pix[i] = p`). -/
def setPix (b : Tigr) (i : Nat) (p : TPixel) : Tigr :=
  { b with pix := fun j => if j = i then p else b.pix j }

/-- A `LidarScan` restricted to what the examples use: its dimensions and
the `uint32_t` channel image selected by the `ChanField` argument `f`
(the examples always pass `ChanField::RANGE`).  `img y x` is
`scan.field(f)(y, x)` — row `y`, column `x`. -/
structure LidarScan where
  w : Nat
  h : Nat
  img : Nat → Nat → Nat

/-- The `tigr_mouse_t` struct from `tigr_mouse.h`. -/
structure tigr_mouse_t where
  btn : Int
  up : Int
  down : Int
  x : Int
  y : Int

/-! ### `scan_to_bmp` (view_tigr.cpp, lines 49–82) -/

/-- The traversal order of the two nested loops in `scan_to_bmp`:
`x` from `0` to `w-1` (outer), `y` from `0` to `h-1` (inner). -/
def scanIndices (w h : Nat) : List (Nat × Nat) :=
  (List.range w).flatMap (fun x => (List.range h).map (fun y => (x, y)))

/-- One iteration of the min/max loop body:
`if (value < min) min = value; if (value > max) max = value;`. -/
def minmaxStep (mm : Int × Int) (v : Int) : Int × Int :=
  (if v < mm.1 then v else mm.1, if v > mm.2 then v else mm.2)

/-- The first loop of `scan_to_bmp`: compute the minimum and maximum
`int32_t` reinterpretation of the channel values, starting from
`min = INT32_MAX`, `max = INT32_MIN`. -/
def scanMinMax (s : LidarScan) : Int × Int :=
  (scanIndices s.w s.h).foldl
    (fun mm xy => minmaxStep mm (toInt32 (s.img xy.2 xy.1)))
    (int32Max, int32Min)

/-- The normalization arithmetic of the second loop of `scan_to_bmp`, in
32-bit wrap-around arithmetic: `value -= min; value *= 255; value /= d;`
where `d` is the `int` value of `max - min`.  C integer division truncates
toward zero (`Int.tdiv`). -/
def normColor (mn d : Int) (v : Nat) : Int :=
  wrap32 (Int.tdiv (wrap32 (wrap32 (toInt32 v - mn) * 255)) d)

/-- The pixel written for normalized intensity `c`:
`r = g = b = c`, `a = 255`. -/
def grayPix (c : Nat) : TPixel := ⟨c, c, c, 255⟩

/-- One iteration of the write loop of `scan_to_bmp`: write the normalized
gray pixel at index `i = y * bmp->w + x`. -/
def writeStep (s : LidarScan) (mn d : Int) (b : Tigr) (xy : Nat × Nat) : Tigr :=
  setPix b (xy.2 * b.w + xy.1) (grayPix (toByte (normColor mn d (s.img xy.2 xy.1))))

/-- `scan_to_bmp` (view_tigr.cpp).  Returns `none` when an iteration of the
write loop reaches the division `value /= (max - min)` with a zero divisor
(division by zero, undefined behavior in C — there is no guard in the
source); otherwise returns the updated bitmap. -/
def scan_to_bmp (s : LidarScan) (bmp : Tigr) : Option Tigr :=
  let mm := scanMinMax s
  let d := wrap32 (mm.2 - mm.1)
  (scanIndices s.w s.h).foldlM
    (fun b xy => if d = 0 then none else some (writeStep s mm.1 d b xy))
    bmp

/-! ### `print_range` (view_tigr.cpp, lines 85–98) -/

/-- `print_range`: bounds-check the cursor coordinates against the scan
dimensions; if in bounds, overwrite pixel `i = y * bmp->w + x` with the
highlight color `(0xFF, 0, 0, 255)` and print `x y : value`.  The second
component models the `printf` output: `some (x, y, value)` when something
was printed. -/
def print_range (s : LidarScan) (bmp : Tigr) (x y : Int) :
    Tigr × Option (Int × Int × Int) :=
  if x < 0 ∨ (s.w : Int) ≤ x then (bmp, none)
  else if y < 0 ∨ (s.h : Int) ≤ y then (bmp, none)
  else
    let i := (y * (bmp.w : Int) + x).toNat
    (setPix bmp i ⟨0xFF, 0, 0, 255⟩,
     some (x, y, toInt32 (s.img y.toNat x.toNat)))

/-- The list of channel values (as reinterpreted `int32_t`) visited by the
min/max loop, in loop order. -/
def scanVals (s : LidarScan) : List Int :=
  (scanIndices s.w s.h).map (fun xy => toInt32 (s.img xy.2 xy.1))

/-! ### The acquisition loops

The SDK calls (`poll_client`, `read_lidar_packet`, `batch_to_scan`,
`scan.complete`, `read_imu_packet`, `cartesian`) are external collaborators.
One loop iteration is modelled as a function of the values those calls
return this iteration (the `PollInput`) and the program state the iteration
can change. -/

/-- The flags of `sensor::client_state` used by the examples
(`CLIENT_ERROR`, `LIDAR_DATA`, `IMU_DATA`). -/
structure client_state where
  err : Bool
  lidar : Bool
  imu : Bool

/-- Everything the external SDK hands one loop iteration: the poll status,
the result of `read_lidar_packet`, the result of `batch_to_scan` (scan
complete?), the result of `scan.complete(column_window)`, the batched scan
itself, the mouse state sampled by the display loop, and the raw packet
bytes that a successful read would deposit in the scratch buffer. -/
structure PollInput where
  st : client_state
  readOk : Bool
  batchComplete : Bool
  scanComplete : Bool
  scan : LidarScan
  mouse : tigr_mouse_t
  lidarPacket : List Nat
  imuPacket : List Nat

/-- External calls performed by a loop iteration, in order. -/
inductive Call where
  | readLidar
  | batch
  | scanToBmp
  | printRange
  | cartesian
  | readImu
  | setXyz
  | setKey
  | fatalCall (msg : String)
deriving DecidableEq, Repr

def EXIT_SUCCESS : Nat := 0

def EXIT_FAILURE : Nat := 1

/-- Process termination performed by `FATAL(msg)`: print `msg` to `stderr`
and `exit(EXIT_FAILURE)`. -/
structure FatalExit where
  msg : String
  code : Nat
deriving DecidableEq, Repr

def FATAL (msg : String) : FatalExit := ⟨msg, EXIT_FAILURE⟩

/-- The state a `render_thread` iteration can change: the shared bitmap and
the raw packet scratch buffer. -/
structure LoopSt where
  bmp : Tigr
  packetBuf : List Nat

/-- Result of one `render_thread` loop iteration. -/
inductive StepResult where
  | fatal (f : FatalExit)
  | undef
  | next (s : LoopSt) (printed : Option (Int × Int × Int))

/-- The critical section of `render_thread` (view_tigr.cpp, lines 154–160):
under the lock, run `scan_to_bmp`, then, if the mouse button is down, run
`print_range` at the cursor coordinates.  `none` models the undefined
division by zero inside `scan_to_bmp`. -/
def frame_write (scan : LidarScan) (mouse : tigr_mouse_t) (bmp : Tigr) :
    Option (Tigr × Option (Int × Int × Int)) :=
  match scan_to_bmp scan bmp with
  | none => none
  | some b1 =>
    if mouse.btn ≠ 0 then some (print_range scan b1 mouse.x mouse.y)
    else some (b1, none)

/-- The IMU branch of `render_thread` (view_tigr.cpp, lines 166–170):
`if (st & sensor::IMU_DATA) read_imu_packet(...)` — the packet is read into
the scratch buffer and otherwise discarded. -/
def imu_branch (inp : PollInput) (s : LoopSt) : List Call × LoopSt :=
  if inp.st.imu then ([.readImu], { s with packetBuf := inp.imuPacket })
  else ([], s)

/-- One iteration of the `while (1)` loop of `render_thread` (view_tigr.cpp,
lines 130–171), given the SDK results `inp`: check `CLIENT_ERROR` (fatal),
then the `LIDAR_DATA` branch (fatal on failed read; batch; on scan
completion write the frame under the lock and compute `cartesian`), then
the `IMU_DATA` branch.  Also returns the list of external calls made, in
order. -/
def render_step (inp : PollInput) (s : LoopSt) : List Call × StepResult :=
  if inp.st.err then
    ([.fatalCall "Sensor client returned error state!"],
     .fatal (FATAL "Sensor client returned error state!"))
  else if inp.st.lidar then
    if inp.readOk = false then
      ([.readLidar, .fatalCall "Failed to read a packet of the expected size!"],
       .fatal (FATAL "Failed to read a packet of the expected size!"))
    else
      let s1 : LoopSt := { s with packetBuf := inp.lidarPacket }
      if inp.batchComplete then
        if inp.scanComplete then
          match frame_write inp.scan inp.mouse s1.bmp with
          | none => ([.readLidar, .batch, .scanToBmp], .undef)
          | some (b2, pr) =>
            let calls := [.readLidar, .batch, .scanToBmp]
              ++ (if inp.mouse.btn ≠ 0 then [.printRange] else []) ++ [.cartesian]
            let ci := imu_branch inp { s1 with bmp := b2 }
            (calls ++ ci.1, .next ci.2 pr)
        else
          let ci := imu_branch inp s1
          ([.readLidar, .batch] ++ ci.1, .next ci.2 none)
      else
        let ci := imu_branch inp s1
        ([.readLidar, .batch] ++ ci.1, .next ci.2 none)
  else
    let ci := imu_branch inp s
    (ci.1, .next ci.2 none)

/-- Outcome of running the loop on a finite prefix of SDK results. -/
inductive RunOutcome where
  | ran
  | fatal (f : FatalExit)
  | undef
deriving DecidableEq, Repr

/-- Run `render_thread` over a list of per-iteration SDK results,
accumulating the calls made.  A fatal exit (or undefined behavior) stops
the run; the state returned is the state at the stop. -/
def render_run : List PollInput → LoopSt → LoopSt × List Call × RunOutcome
  | [], s => (s, [], .ran)
  | inp :: rest, s =>
    match render_step inp s with
    | (t, .fatal f) => (s, t, .fatal f)
    | (t, .undef) => (s, t, .undef)
    | (t, .next s1 _) =>
      let r := render_run rest s1
      (r.1, t ++ r.2.1, r.2.2)

/-- The state a `lidar_view_example` main-loop iteration can change: whether
the cloud positions and color keys were ever set, and the scratch buffer. -/
structure VizSt where
  cloudSet : Bool
  keySet : Bool
  packetBuf : List Nat

inductive VizStepResult where
  | fatal (f : FatalExit)
  | next (s : VizSt)

/-- The IMU branch of the `lidar_view_example` main loop (lines 201–204). -/
def viz_imu_branch (inp : PollInput) (s : VizSt) : List Call × VizSt :=
  if inp.st.imu then ([.readImu], { s with packetBuf := inp.imuPacket })
  else ([], s)

/-- One iteration of the `while (1)` loop of `lidar_view_example`'s `main`
(lines 173–208): check `CLIENT_ERROR` (fatal), then the `LIDAR_DATA` branch
(fatal on failed read; batch; on scan completion compute `cartesian` and
push positions and color keys to the cloud), then the `IMU_DATA` branch. -/
def viz_step (inp : PollInput) (s : VizSt) : List Call × VizStepResult :=
  if inp.st.err then
    ([.fatalCall "Sensor client returned error state!"],
     .fatal (FATAL "Sensor client returned error state!"))
  else if inp.st.lidar then
    if inp.readOk = false then
      ([.readLidar, .fatalCall "Failed to read a packet of the expected size!"],
       .fatal (FATAL "Failed to read a packet of the expected size!"))
    else
      let s1 : VizSt := { s with packetBuf := inp.lidarPacket }
      if inp.batchComplete then
        if inp.scanComplete then
          let s2 : VizSt := { s1 with cloudSet := true, keySet := true }
          let ci := viz_imu_branch inp s2
          ([.readLidar, .batch, .cartesian, .setXyz, .setKey] ++ ci.1, .next ci.2)
        else
          let ci := viz_imu_branch inp s1
          ([.readLidar, .batch] ++ ci.1, .next ci.2)
      else
        let ci := viz_imu_branch inp s1
        ([.readLidar, .batch] ++ ci.1, .next ci.2)
  else
    let ci := viz_imu_branch inp s
    (ci.1, .next ci.2)

/-- Run the `lidar_view_example` main loop over a list of SDK results. -/
def viz_run : List PollInput → VizSt → VizSt × List Call × RunOutcome
  | [], s => (s, [], .ran)
  | inp :: rest, s =>
    match viz_step inp s with
    | (t, .fatal f) => (s, t, .fatal f)
    | (t, .next s1) =>
      let r := viz_run rest s1
      (r.1, t ++ r.2.1, r.2.2)

/-- The connection check shared by both programs:
`if (!handle) FATAL("Failed to connect");`. -/
def connect_check (handleOk : Bool) : Except FatalExit Unit :=
  if handleOk then .ok () else .error (FATAL "Failed to connect")

/-! ### Command-line argument handling -/

/-- What `main` does before attempting a sensor connection: whether it
prints the usage message, and `some code` if it exits right away. -/
structure UsageCheck where
  printsUsage : Bool
  exit : Option Nat
deriving DecidableEq, Repr

/-- The argument check of `lidar_view_example`'s `main` (lines 63–74):
`if (argc != 2 && argc != 3) { print usage; return argc == 1 ? EXIT_SUCCESS
: EXIT_FAILURE; }`. -/
def lidar_view_usage (argc : Nat) : UsageCheck :=
  if argc ≠ 2 ∧ argc ≠ 3 then
    ⟨true, some (if argc = 1 then EXIT_SUCCESS else EXIT_FAILURE)⟩
  else ⟨false, none⟩

/-- The argument handling of `view_tigr`'s `main` (lines 206–211): there is
no argument-count check and no usage message; `argv[1]` is passed to the
`app_t` initializer unconditionally. -/
def view_tigr_usage (_argc : Nat) : UsageCheck := ⟨false, none⟩

/-! ### The lock discipline of the shared bitmap

The writer (`render_thread`, view_tigr.cpp lines 154–160) executes
`pthread_mutex_lock; scan_to_bmp; print_range?; pthread_mutex_unlock` per
published frame; the reader (the display loop in `main`, lines 233–237)
executes `pthread_mutex_lock; tigrBlit; pthread_mutex_unlock` per frame.
Both loop forever.  Accesses to the shared bitmap are the `access` actions;
the mutex semantics is the only synchronization. -/

inductive Tid where
  | writer
  | reader
deriving DecidableEq

inductive Act where
  | lock
  | unlock
  | access
deriving DecidableEq

/-- The writer's per-frame action sequence: lock, write the frame
(`scan_to_bmp`), write the probe overlay (`print_range`), unlock. -/
def writerScript : List Act := [.lock, .access, .access, .unlock]

/-- The reader's per-frame action sequence: lock, read the frame
(`tigrBlit`), unlock. -/
def readerScript : List Act := [.lock, .access, .unlock]

/-- A configuration of the two looping threads: each thread's position in
its script and the current lock owner. -/
structure Config where
  wpc : Nat
  rpc : Nat
  owner : Option Tid
deriving DecidableEq

/-- Whether action `a` by thread `t` is enabled under lock owner `o`:
`pthread_mutex_lock` blocks until the mutex is free, `pthread_mutex_unlock`
requires ownership, and a plain memory access is never blocked by the
hardware. -/
def mayStep (a : Act) (t : Tid) (o : Option Tid) : Prop :=
  match a with
  | .lock => o = none
  | .unlock => o = some t
  | .access => True

/-- The lock owner after thread `t` performs action `a`. -/
def ownerAfter (a : Act) (t : Tid) (o : Option Tid) : Option Tid :=
  match a with
  | .lock => some t
  | .unlock => none
  | .access => o

/-- Interleaving semantics: at each step the scheduler picks one thread,
which performs its next script action (wrapping around, as both loops run
forever). -/
inductive LockStep : Config → Config → Prop where
  | writer (c : Config) (a : Act) (ha : writerScript.get? c.wpc = some a)
      (hm : mayStep a .writer c.owner) :
      LockStep c ⟨(c.wpc + 1) % writerScript.length, c.rpc, ownerAfter a .writer c.owner⟩
  | reader (c : Config) (a : Act) (ha : readerScript.get? c.rpc = some a)
      (hm : mayStep a .reader c.owner) :
      LockStep c ⟨c.wpc, (c.rpc + 1) % readerScript.length, ownerAfter a .reader c.owner⟩

/-- Initially both threads are at the top of their loops and the mutex is
free. -/
def initConfig : Config := ⟨0, 0, none⟩

/-- Configurations reachable in some interleaving. -/
inductive Reach : Config → Prop where
  | init : Reach initConfig
  | step (c c' : Config) (h : Reach c) (hs : LockStep c c') : Reach c'

/-- The writer is inside its critical section (has executed `lock` but not
yet the matching `unlock`, so a frame write may be in progress). -/
def writerInCrit (c : Config) : Prop := c.wpc ≠ 0

/-- The reader is inside its critical section (mid-blit). -/
def readerInCrit (c : Config) : Prop := c.rpc ≠ 0

/-- The mutual-exclusion invariant. -/
def LockInv (c : Config) : Prop :=
  c.wpc < 4 ∧ c.rpc < 3
    ∧ (c.wpc ≠ 0 → c.owner = some .writer)
    ∧ (c.rpc ≠ 0 → c.owner = some .reader)

/-! ### Trace predicates -/

def isFatalCall : Call → Bool
  | .fatalCall _ => true
  | _ => false

/-- Holds when nothing follows a `FATAL` call in a trace: the process
terminates at the first fatal error. -/
def fatalIsLast : List Call → Bool
  | [] => true
  | c :: rest => if isFatalCall c then rest.isEmpty else fatalIsLast rest

/-! ### Concrete test data for witnesses and counterexamples -/

/-- A 1×2 scan whose two channel values are 0 and 8421505, so its value
range just exceeds `⌊(2^31 - 1) / 255⌋` and `(v - min) * 255` overflows
`int32_t` at the maximum. -/
def cexScan : LidarScan := ⟨1, 2, fun y _ => if y = 0 then 0 else 8421505⟩

/-- A 1×2 bitmap with all components initially 0. -/
def cexBmp : Tigr := ⟨1, 2, fun _ => ⟨0, 0, 0, 0⟩⟩

/-- A 1×2 scan with values 0 and 1 (no overflow). -/
def goodScan : LidarScan := ⟨1, 2, fun y _ => y⟩

/-- A 2×2 scan with all channel values equal. -/
def constScan : LidarScan := ⟨2, 2, fun _ _ => 77⟩

/-- A mouse state with the button held at the in-bounds coordinate (0, 1). -/
def probeMouse : tigr_mouse_t := ⟨1, 0, 0, 0, 1⟩

/-- A poll result reporting the sensor error status. -/
def errInput : PollInput :=
  ⟨⟨true, false, false⟩, true, false, false, goodScan, probeMouse, [], []⟩

/-- A poll result reporting lidar data whose packet read fails. -/
def readFailInput : PollInput :=
  ⟨⟨false, true, false⟩, false, false, false, goodScan, probeMouse, [], []⟩

/-- A poll result reporting IMU data only. -/
def imuInput : PollInput :=
  ⟨⟨false, false, true⟩, true, false, false, goodScan, probeMouse, [], [9, 9]⟩

def initLoopSt : LoopSt := ⟨cexBmp, []⟩

def initVizSt : VizSt := ⟨false, false, []⟩

/-! ## Theorems -/

theorem wrap32_eq_self (z : Int) (h1 : -2147483648 ≤ z) (h2 : z < 2147483648) :
    wrap32 z = z := by
  unfold wrap32
  rw [Int.emod_eq_of_lt (by omega) (by omega)]
  omega

theorem wrap32_lb (z : Int) : -2147483648 ≤ wrap32 z := by
  unfold wrap32
  have h : 0 ≤ (z + 2147483648) % 4294967296 :=
    Int.emod_nonneg _ (by norm_num)
  omega

theorem wrap32_ub (z : Int) : wrap32 z < 2147483648 := by
  unfold wrap32
  have h : (z + 2147483648) % 4294967296 < 4294967296 :=
    Int.emod_lt_of_pos _ (by norm_num)
  omega

theorem toInt32_eq_self (n : Nat) (h : n < 2147483648) : toInt32 n = (n : Nat) := by
  unfold toInt32
  rw [Nat.mod_eq_of_lt (by omega)]
  simp [h]

theorem toInt32_lb (n : Nat) : -2147483648 ≤ toInt32 n := by
  unfold toInt32
  have h : n % 4294967296 < 4294967296 := Nat.mod_lt _ (by norm_num)
  split <;> omega

theorem toInt32_ub (n : Nat) : toInt32 n < 2147483648 := by
  unfold toInt32
  split
  case isTrue h => exact_mod_cast h
  case isFalse h =>
    have h2 : n % 4294967296 < 4294967296 := Nat.mod_lt _ (by norm_num)
    omega

theorem toByte_coe (k : Nat) (h : k < 256) : toByte (k : Int) = k := by
  unfold toByte
  rw [Int.emod_eq_of_lt (by positivity) (by exact_mod_cast h)]
  simp

/-! ### Lemmas about the min/max fold -/

theorem foldl_min_le_init (l : List Int) (a : Int) : l.foldl min a ≤ a := by
  induction l generalizing a with
  | nil => simp
  | cons v t ih =>
    simp only [List.foldl_cons]
    exact le_trans (ih (min a v)) (min_le_left a v)

theorem foldl_min_le_mem (l : List Int) (a v : Int) (hv : v ∈ l) :
    l.foldl min a ≤ v := by
  induction l generalizing a with
  | nil => cases hv
  | cons u t ih =>
    simp only [List.foldl_cons]
    rcases List.mem_cons.mp hv with h | h
    · subst h
      exact le_trans (foldl_min_le_init t (min a v)) (min_le_right a v)
    · exact ih (min a u) h

theorem foldl_min_eq_init_or_mem (l : List Int) (a : Int) :
    l.foldl min a = a ∨ l.foldl min a ∈ l := by
  induction l generalizing a with
  | nil => left; rfl
  | cons u t ih =>
    simp only [List.foldl_cons]
    rcases ih (min a u) with h | h
    · rcases le_total a u with hau | hua
      · left; rw [h, min_eq_left hau]
      · right; rw [h, min_eq_right hua]; exact List.mem_cons_self u t
    · right; exact List.mem_cons_of_mem u h

theorem init_le_foldl_max (l : List Int) (a : Int) : a ≤ l.foldl max a := by
  induction l generalizing a with
  | nil => simp
  | cons v t ih =>
    simp only [List.foldl_cons]
    exact le_trans (le_max_left a v) (ih (max a v))

theorem mem_le_foldl_max (l : List Int) (a v : Int) (hv : v ∈ l) :
    v ≤ l.foldl max a := by
  induction l generalizing a with
  | nil => cases hv
  | cons u t ih =>
    simp only [List.foldl_cons]
    rcases List.mem_cons.mp hv with h | h
    · subst h
      exact le_trans (le_max_right a v) (init_le_foldl_max t (max a v))
    · exact ih (max a u) h

theorem foldl_max_eq_init_or_mem (l : List Int) (a : Int) :
    l.foldl max a = a ∨ l.foldl max a ∈ l := by
  induction l generalizing a with
  | nil => left; rfl
  | cons u t ih =>
    simp only [List.foldl_cons]
    rcases ih (max a u) with h | h
    · rcases le_total a u with hau | hua
      · right; rw [h, max_eq_right hau]; exact List.mem_cons_self u t
      · left; rw [h, max_eq_left hua]
    · right; exact List.mem_cons_of_mem u h

theorem minmaxStep_eq_min_max (a b v : Int) :
    minmaxStep (a, b) v = (min a v, max b v) := by
  unfold minmaxStep
  refine Prod.ext ?_ ?_ <;> simp only [] <;> split <;> omega

theorem foldl_minmaxStep_eq (l : List Int) (a b : Int) :
    l.foldl minmaxStep (a, b) = (l.foldl min a, l.foldl max b) := by
  induction l generalizing a b with
  | nil => rfl
  | cons v t ih =>
    simp only [List.foldl_cons, minmaxStep_eq_min_max]
    exact ih (min a v) (max b v)

theorem scanMinMax_eq_foldl (s : LidarScan) :
    scanMinMax s
      = ((scanVals s).foldl min int32Max, (scanVals s).foldl max int32Min) := by
  have h : scanMinMax s = (scanVals s).foldl minmaxStep (int32Max, int32Min) := by
    unfold scanMinMax scanVals
    rw [List.foldl_map]
  rw [h, foldl_minmaxStep_eq]

theorem mem_scanIndices (w h x y : Nat) :
    (x, y) ∈ scanIndices w h ↔ x < w ∧ y < h := by
  unfold scanIndices
  constructor
  · intro hmem
    rcases List.mem_flatMap.mp hmem with ⟨a, ha, hmap⟩
    rcases List.mem_map.mp hmap with ⟨b, hb, heq⟩
    have hx : a = x := congrArg Prod.fst heq
    have hy : b = y := congrArg Prod.snd heq
    subst hx; subst hy
    exact ⟨List.mem_range.mp ha, List.mem_range.mp hb⟩
  · intro ⟨hx, hy⟩
    refine List.mem_flatMap.mpr ⟨x, List.mem_range.mpr hx, ?_⟩
    exact List.mem_map.mpr ⟨y, List.mem_range.mpr hy, rfl⟩

theorem val_mem_scanVals (s : LidarScan) (x y : Nat) (hx : x < s.w) (hy : y < s.h) :
    toInt32 (s.img y x) ∈ scanVals s := by
  unfold scanVals
  exact List.mem_map_of_mem _ ((mem_scanIndices s.w s.h x y).mpr ⟨hx, hy⟩)

theorem mem_scanVals_val (s : LidarScan) (v : Int) (hv : v ∈ scanVals s) :
    ∃ x, x < s.w ∧ ∃ y, y < s.h ∧ v = toInt32 (s.img y x) := by
  unfold scanVals at hv
  rcases List.mem_map.mp hv with ⟨xy, hxy, heq⟩
  rcases (mem_scanIndices s.w s.h xy.1 xy.2).mp hxy with ⟨hx, hy⟩
  exact ⟨xy.1, hx, xy.2, hy, heq.symm⟩

theorem scanIndices_eq_nil (w h : Nat) (hwh : w = 0 ∨ h = 0) :
    scanIndices w h = [] := by
  have : ∀ p : Nat × Nat, p ∉ scanIndices w h := by
    intro p hp
    rcases (mem_scanIndices w h p.1 p.2).mp hp with ⟨hx, hy⟩
    rcases hwh with h0 | h0 <;> omega
  exact List.eq_nil_iff_forall_not_mem.mpr this

/-- Every value of the scan lies between the computed minimum and maximum. -/
theorem scanMinMax_bounds (s : LidarScan) (x y : Nat) (hx : x < s.w) (hy : y < s.h) :
    (scanMinMax s).1 ≤ toInt32 (s.img y x)
      ∧ toInt32 (s.img y x) ≤ (scanMinMax s).2 := by
  rw [scanMinMax_eq_foldl]
  exact ⟨foldl_min_le_mem _ _ _ (val_mem_scanVals s x y hx hy),
         mem_le_foldl_max _ _ _ (val_mem_scanVals s x y hx hy)⟩

/-- For a nonempty scan the computed minimum and maximum are attained. -/
theorem scanMinMax_attained (s : LidarScan) (hw : 0 < s.w) (hh : 0 < s.h) :
    (scanMinMax s).1 ∈ scanVals s ∧ (scanMinMax s).2 ∈ scanVals s := by
  have hv0 : toInt32 (s.img 0 0) ∈ scanVals s := val_mem_scanVals s 0 0 hw hh
  rw [scanMinMax_eq_foldl]
  constructor
  · rcases foldl_min_eq_init_or_mem (scanVals s) int32Max with h | h
    · have h1 : (scanVals s).foldl min int32Max ≤ toInt32 (s.img 0 0) :=
        foldl_min_le_mem _ _ _ hv0
      have h2 : toInt32 (s.img 0 0) < 2147483648 := toInt32_ub _
      have h3 : toInt32 (s.img 0 0) = (scanVals s).foldl min int32Max := by
        rw [h] at h1 ⊢
        unfold int32Max at h1 ⊢
        omega
      exact h3 ▸ hv0
    · exact h
  · rcases foldl_max_eq_init_or_mem (scanVals s) int32Min with h | h
    · have h1 : toInt32 (s.img 0 0) ≤ (scanVals s).foldl max int32Min :=
        mem_le_foldl_max _ _ _ hv0
      have h2 : -2147483648 ≤ toInt32 (s.img 0 0) := toInt32_lb _
      have h3 : toInt32 (s.img 0 0) = (scanVals s).foldl max int32Min := by
        rw [h] at h1 ⊢
        unfold int32Min at h1 ⊢
        omega
      exact h3 ▸ hv0
    · exact h

/-- The computed minimum is nonnegative when all channel values are below
`2^31`, and the computed maximum is always below `2^31`. -/
theorem scanMinMax_range (s : LidarScan)
    (hB : ∀ x, x < s.w → ∀ y, y < s.h → s.img y x < 2147483648) :
    0 ≤ (scanMinMax s).1 ∧ (scanMinMax s).2 < 2147483648 := by
  have hvals : ∀ v ∈ scanVals s, 0 ≤ v ∧ v < 2147483648 := by
    intro v hv
    rcases mem_scanVals_val s v hv with ⟨x, hx, y, hy, heq⟩
    rw [heq, toInt32_eq_self _ (hB x hx y hy)]
    exact ⟨by positivity, by exact_mod_cast hB x hx y hy⟩
  rw [scanMinMax_eq_foldl]
  constructor
  · rcases foldl_min_eq_init_or_mem (scanVals s) int32Max with h | h
    · rw [h]; unfold int32Max; omega
    · exact (hvals _ h).1
  · rcases foldl_max_eq_init_or_mem (scanVals s) int32Min with h | h
    · rw [h]; unfold int32Min; omega
    · exact (hvals _ h).2

/-! ### Lemmas about the write fold -/

theorem foldlM_writeStep_some (s : LidarScan) (mn d : Int) (hd : d ≠ 0) :
    ∀ (l : List (Nat × Nat)) (b : Tigr),
      (l.foldlM (fun b xy => if d = 0 then none else some (writeStep s mn d b xy)) b)
        = some (l.foldl (writeStep s mn d) b) := by
  intro l
  induction l with
  | nil => intro b; rfl
  | cons a t ih =>
    intro b
    rw [List.foldlM_cons, if_neg hd]
    simp only [Option.bind_eq_bind, Option.some_bind, List.foldl_cons]
    exact ih (writeStep s mn d b a)

theorem foldlM_writeStep_none (s : LidarScan) (mn d : Int) (hd : d = 0)
    (a : Nat × Nat) (t : List (Nat × Nat)) (b : Tigr) :
    ((a :: t).foldlM (fun b xy => if d = 0 then none else some (writeStep s mn d b xy)) b)
      = none := by
  rw [List.foldlM_cons, if_pos hd]
  rfl

theorem setPix_w (b : Tigr) (i : Nat) (p : TPixel) : (setPix b i p).w = b.w := rfl

theorem foldl_writeStep_w (s : LidarScan) (mn d : Int) :
    ∀ (l : List (Nat × Nat)) (b : Tigr), (l.foldl (writeStep s mn d) b).w = b.w := by
  intro l
  induction l with
  | nil => intro b; rfl
  | cons a t ih =>
    intro b
    rw [List.foldl_cons, ih (writeStep s mn d b a)]
    rfl

theorem foldl_writeStep_pix_untouched (s : LidarScan) (mn d : Int) :
    ∀ (l : List (Nat × Nat)) (b : Tigr) (i : Nat),
      (∀ xy ∈ l, xy.2 * b.w + xy.1 ≠ i) →
      (l.foldl (writeStep s mn d) b).pix i = b.pix i := by
  intro l
  induction l with
  | nil => intro b i _; rfl
  | cons a t ih =>
    intro b i hno
    rw [List.foldl_cons]
    have hw : (writeStep s mn d b a).w = b.w := rfl
    rw [ih (writeStep s mn d b a) i (fun xy hxy => by
      rw [hw]; exact hno xy (List.mem_cons_of_mem a hxy))]
    show (if i = a.2 * b.w + a.1 then _ else b.pix i) = b.pix i
    rw [if_neg (fun hc => hno a (List.mem_cons_self a t) hc.symm)]

theorem foldl_writeStep_pix (s : LidarScan) (mn d : Int) :
    ∀ (l : List (Nat × Nat)) (b : Tigr) (x y : Nat),
      (x, y) ∈ l →
      (∀ p ∈ l, ∀ q ∈ l, p.2 * b.w + p.1 = q.2 * b.w + q.1 → p = q) →
      (l.foldl (writeStep s mn d) b).pix (y * b.w + x)
        = grayPix (toByte (normColor mn d (s.img y x))) := by
  intro l
  induction l with
  | nil => intro b x y hmem _; cases hmem
  | cons a t ih =>
    intro b x y hmem hinj
    rw [List.foldl_cons]
    have hw : (writeStep s mn d b a).w = b.w := rfl
    by_cases hxy : (x, y) ∈ t
    · refine ih (writeStep s mn d b a) x y hxy ?_
      intro p hp q hq
      rw [hw]
      exact hinj p (List.mem_cons_of_mem a hp) q (List.mem_cons_of_mem a hq)
    · have hax : a = (x, y) := by
        rcases List.mem_cons.mp hmem with h | h
        · exact h.symm
        · exact absurd h hxy
      subst hax
      rw [foldl_writeStep_pix_untouched s mn d t (writeStep s mn d b (x, y)) _
        (fun q hq => by
          rw [hw]
          intro hEq
          have hq2 : q = (x, y) :=
            hinj q (List.mem_cons_of_mem _ hq) (x, y) (List.mem_cons_self _ _) hEq
          exact hxy (hq2 ▸ hq))]
      show (if y * b.w + x = y * b.w + x then _ else _) = _
      rw [if_pos rfl]

/-- Distinct in-range coordinates are written to distinct bitmap indices. -/
theorem idx_inj (w : Nat) (p q : Nat × Nat) (hp : p.1 < w) (hq : q.1 < w)
    (h : p.2 * w + p.1 = q.2 * w + q.1) : p = q := by
  have hw : 0 < w := Nat.lt_of_le_of_lt (Nat.zero_le _) hp
  have e1 : p.1 = (p.2 * w + p.1) % w := by
    rw [Nat.add_comm, Nat.add_mul_mod_self_right p.1 p.2 w, Nat.mod_eq_of_lt hp]
  have e2 : q.1 = (q.2 * w + q.1) % w := by
    rw [Nat.add_comm, Nat.add_mul_mod_self_right q.1 q.2 w, Nat.mod_eq_of_lt hq]
  have e3 : p.2 = (p.2 * w + p.1) / w := by
    rw [Nat.add_comm, Nat.add_mul_div_right p.1 p.2 hw, Nat.div_eq_of_lt hp,
      Nat.zero_add]
  have e4 : q.2 = (q.2 * w + q.1) / w := by
    rw [Nat.add_comm, Nat.add_mul_div_right q.1 q.2 hw, Nat.div_eq_of_lt hq,
      Nat.zero_add]
  refine Prod.ext ?_ ?_
  · rw [e1, h, ← e2]
  · rw [e3, h, ← e4]

/-! ### The no-overflow arithmetic of the normalization -/

theorem tdiv_coe (p q : Nat) :
    Int.tdiv (p : Int) (q : Int) = ((p / q : Nat) : Int) := rfl

theorem mul255_div_le (a b : Nat) (hb : 0 < b) (hab : a ≤ b) :
    a * 255 / b ≤ 255 := by
  calc a * 255 / b ≤ b * 255 / b :=
        Nat.div_le_div_right (Nat.mul_le_mul_right 255 hab)
    _ = 255 := Nat.mul_div_cancel_left 255 hb

/-- When no 32-bit overflow occurs, the normalization pipeline computes the
exact rational rescaling `(v - min) * 255 / (max - min)` (floor division). -/
theorem normColor_good (mn mx : Int) (v : Nat)
    (hmn0 : 0 ≤ mn) (hmnv : mn ≤ (v : Int)) (hvmx : (v : Int) ≤ mx)
    (hmx31 : mx < 2147483648) (hrange : mx - mn ≤ 8421504) (hlt : mn < mx) :
    normColor mn (mx - mn) v
      = (((v - mn.toNat) * 255 / (mx.toNat - mn.toNat) : Nat) : Int)
    ∧ (v - mn.toNat) * 255 / (mx.toNat - mn.toNat) ≤ 255 := by
  have hv31 : v < 2147483648 := by exact_mod_cast lt_of_le_of_lt hvmx hmx31
  have hmnN : ((mn.toNat : Nat) : Int) = mn := Int.toNat_of_nonneg hmn0
  have hmxN : ((mx.toNat : Nat) : Int) = mx := Int.toNat_of_nonneg (le_trans hmn0 (le_of_lt hlt))
  have hmnv' : mn.toNat ≤ v := by omega
  have hsub : ((v - mn.toNat : Nat) : Int) = (v : Int) - mn := by
    rw [Int.ofNat_sub hmnv']
    omega
  have hdsub : ((mx.toNat - mn.toNat : Nat) : Int) = mx - mn := by
    rw [Int.ofNat_sub (by omega)]
    omega
  have hd0 : 0 < mx.toNat - mn.toNat := by omega
  have hboundN : (v - mn.toNat) ≤ (mx.toNat - mn.toNat) := by omega
  have hdivle : (v - mn.toNat) * 255 / (mx.toNat - mn.toNat) ≤ 255 :=
    mul255_div_le _ _ hd0 hboundN
  refine ⟨?_, hdivle⟩
  unfold normColor
  rw [toInt32_eq_self v hv31]
  rw [wrap32_eq_self ((v : Int) - mn) (by omega) (by omega)]
  rw [← hsub]
  rw [show (((v - mn.toNat : Nat) : Int) * 255) = (((v - mn.toNat) * 255 : Nat) : Int) by
    push_cast; ring]
  rw [wrap32_eq_self (((v - mn.toNat) * 255 : Nat) : Int)
    (le_trans (by norm_num) (Int.natCast_nonneg _)) (by
    have : (v - mn.toNat) * 255 ≤ 8421504 * 255 := by
      have hb : v - mn.toNat ≤ 8421504 := by omega
      exact Nat.mul_le_mul_right 255 hb
    have h2 : ((v - mn.toNat) * 255 : Nat) ≤ (8421504 * 255 : Nat) := this
    exact_mod_cast lt_of_le_of_lt h2 (by norm_num))]
  rw [← hdsub, tdiv_coe]
  rw [wrap32_eq_self _ (le_trans (by norm_num) (Int.natCast_nonneg _)) (by
    exact_mod_cast lt_of_le_of_lt hdivle (by norm_num))]

theorem scanMinMax_of_empty (s : LidarScan) (hwh : s.w = 0 ∨ s.h = 0) :
    scanMinMax s = (int32Max, int32Min) := by
  rw [scanMinMax_eq_foldl]
  have h : scanVals s = [] := by
    unfold scanVals
    rw [scanIndices_eq_nil s.w s.h hwh]
    rfl
  rw [h]
  rfl

theorem nonempty_of_minmax_lt (s : LidarScan)
    (hlt : (scanMinMax s).1 < (scanMinMax s).2) : 0 < s.w ∧ 0 < s.h := by
  rcases Nat.eq_zero_or_pos s.w with hw | hw
  · rw [scanMinMax_of_empty s (Or.inl hw)] at hlt
    exact absurd hlt (by norm_num [int32Max, int32Min])
  rcases Nat.eq_zero_or_pos s.h with hh | hh
  · rw [scanMinMax_of_empty s (Or.inr hh)] at hlt
    exact absurd hlt (by norm_num [int32Max, int32Min])
  exact ⟨hw, hh⟩

/-- Workhorse for the no-overflow case: `scan_to_bmp` succeeds and writes at
`(x, y)` the gray pixel given by exact floor rescaling, which is at most
255. -/
theorem scan_to_bmp_pix (s : LidarScan) (bmp : Tigr) (x y : Nat)
    (hbw : bmp.w = s.w) (hx : x < s.w) (hy : y < s.h)
    (hB : ∀ x, x < s.w → ∀ y, y < s.h → s.img y x < 2147483648)
    (hlt : (scanMinMax s).1 < (scanMinMax s).2)
    (hrange : (scanMinMax s).2 - (scanMinMax s).1 ≤ 8421504) :
    (scan_to_bmp s bmp).map (fun b => b.pix (y * s.w + x))
      = some (grayPix ((s.img y x - (scanMinMax s).1.toNat) * 255
          / ((scanMinMax s).2.toNat - (scanMinMax s).1.toNat)))
    ∧ (s.img y x - (scanMinMax s).1.toNat) * 255
        / ((scanMinMax s).2.toNat - (scanMinMax s).1.toNat) ≤ 255 := by
  have hmn0 : 0 ≤ (scanMinMax s).1 := (scanMinMax_range s hB).1
  have hmx31 : (scanMinMax s).2 < 2147483648 := (scanMinMax_range s hB).2
  have hwrap : wrap32 ((scanMinMax s).2 - (scanMinMax s).1)
      = (scanMinMax s).2 - (scanMinMax s).1 :=
    wrap32_eq_self _ (by omega) (by omega)
  have hdne : (scanMinMax s).2 - (scanMinMax s).1 ≠ 0 := by omega
  have hbnd := scanMinMax_bounds s x y hx hy
  rw [toInt32_eq_self _ (hB x hx y hy)] at hbnd
  have hnorm := normColor_good (scanMinMax s).1 (scanMinMax s).2 (s.img y x)
    hmn0 hbnd.1 hbnd.2 hmx31 hrange hlt
  refine ⟨?_, hnorm.2⟩
  unfold scan_to_bmp
  simp only [hwrap]
  rw [foldlM_writeStep_some s _ _ hdne]
  simp only [Option.map_some']
  refine congrArg some ?_
  have hpix := foldl_writeStep_pix s (scanMinMax s).1
    ((scanMinMax s).2 - (scanMinMax s).1) (scanIndices s.w s.h) bmp x y
    ((mem_scanIndices s.w s.h x y).mpr ⟨hx, hy⟩)
    (fun p hp q hq hEq => by
      refine idx_inj bmp.w p q ?_ ?_ hEq
      · rw [hbw]; exact ((mem_scanIndices s.w s.h p.1 p.2).mp hp).1
      · rw [hbw]; exact ((mem_scanIndices s.w s.h q.1 q.2).mp hq).1)
  rw [hbw] at hpix
  rw [hpix, hnorm.1,
    toByte_coe _ (lt_of_le_of_lt hnorm.2 (by norm_num))]

/-! ### The mutual-exclusion invariant -/

theorem lockStep_inv (c c' : Config) (hs : LockStep c c') (hi : LockInv c) :
    LockInv c' := by
  obtain ⟨wpc, rpc, owner⟩ := c
  obtain ⟨hw, hr, how, hor⟩ := hi
  simp only at hw hr how hor
  cases hs with
  | writer a ha hm =>
    simp only at ha hm ⊢
    interval_cases wpc
    · obtain rfl : Act.lock = a := Option.some.inj ha
      have hmo : owner = none := hm
      refine ⟨Nat.mod_lt _ (by decide), hr, fun _ => rfl, fun hrp => ?_⟩
      rw [hmo] at hor
      exact absurd (hor hrp) (by simp)
    · obtain rfl : Act.access = a := Option.some.inj ha
      exact ⟨Nat.mod_lt _ (by decide), hr, fun _ => how (by norm_num),
        fun hrp => hor hrp⟩
    · obtain rfl : Act.access = a := Option.some.inj ha
      exact ⟨Nat.mod_lt _ (by decide), hr, fun _ => how (by norm_num),
        fun hrp => hor hrp⟩
    · obtain rfl : Act.unlock = a := Option.some.inj ha
      have hmo : owner = some Tid.writer := hm
      refine ⟨Nat.mod_lt _ (by decide), hr, fun h0 => absurd rfl h0, fun hrp => ?_⟩
      rw [hmo] at hor
      exact absurd (Option.some.inj (hor hrp)) (by simp)
  | reader a ha hm =>
    simp only at ha hm ⊢
    interval_cases rpc
    · obtain rfl : Act.lock = a := Option.some.inj ha
      have hmo : owner = none := hm
      refine ⟨hw, Nat.mod_lt _ (by decide), fun hwp => ?_, fun _ => rfl⟩
      rw [hmo] at how
      exact absurd (how hwp) (by simp)
    · obtain rfl : Act.access = a := Option.some.inj ha
      exact ⟨hw, Nat.mod_lt _ (by decide), fun hwp => how hwp,
        fun _ => hor (by norm_num)⟩
    · obtain rfl : Act.unlock = a := Option.some.inj ha
      have hmo : owner = some Tid.reader := hm
      refine ⟨hw, Nat.mod_lt _ (by decide), fun hwp => ?_, fun h0 => absurd rfl h0⟩
      rw [hmo] at how
      exact absurd (Option.some.inj (how hwp)) (by simp)

theorem reach_inv (c : Config) (h : Reach c) : LockInv c := by
  induction h with
  | init =>
    exact ⟨by decide, by decide, fun h => absurd rfl h, fun h => absurd rfl h⟩
  | step c c' hr hs ih => exact lockStep_inv c c' hs ih

/-! ### Step characterizations of the acquisition loops -/

theorem render_step_err (inp : PollInput) (s : LoopSt) (herr : inp.st.err = true) :
    render_step inp s
      = ([.fatalCall "Sensor client returned error state!"],
         .fatal ⟨"Sensor client returned error state!", 1⟩) := by
  unfold render_step
  rw [herr]
  rfl

theorem render_step_readfail (inp : PollInput) (s : LoopSt)
    (herr : inp.st.err = false) (hlid : inp.st.lidar = true)
    (hread : inp.readOk = false) :
    render_step inp s
      = ([.readLidar, .fatalCall "Failed to read a packet of the expected size!"],
         .fatal ⟨"Failed to read a packet of the expected size!", 1⟩) := by
  unfold render_step
  rw [herr, hlid, hread]
  rfl

theorem viz_step_err (inp : PollInput) (s : VizSt) (herr : inp.st.err = true) :
    viz_step inp s
      = ([.fatalCall "Sensor client returned error state!"],
         .fatal ⟨"Sensor client returned error state!", 1⟩) := by
  unfold viz_step
  rw [herr]
  rfl

theorem viz_step_readfail (inp : PollInput) (s : VizSt)
    (herr : inp.st.err = false) (hlid : inp.st.lidar = true)
    (hread : inp.readOk = false) :
    viz_step inp s
      = ([.readLidar, .fatalCall "Failed to read a packet of the expected size!"],
         .fatal ⟨"Failed to read a packet of the expected size!", 1⟩) := by
  unfold viz_step
  rw [herr, hlid, hread]
  rfl

theorem render_step_next_no_fatal (inp : PollInput) (s : LoopSt) (t : List Call)
    (s1 : LoopSt) (pr : Option (Int × Int × Int))
    (h : render_step inp s = (t, .next s1 pr)) :
    ∀ c ∈ t, isFatalCall c = false := by
  unfold render_step at h
  cases herr : inp.st.err <;> rw [herr] at h
  case true => simp at h
  case false =>
  cases hlid : inp.st.lidar <;> rw [hlid] at h
  case false =>
    cases himu : inp.st.imu <;> simp [imu_branch, himu] at h <;>
      (obtain ⟨rfl, h2⟩ := h) <;> decide
  case true =>
  cases hread : inp.readOk <;> rw [hread] at h
  case false => simp at h
  case true =>
  simp only [Bool.true_eq_false, if_false] at h
  cases hbc : inp.batchComplete <;> rw [hbc] at h
  case false =>
    cases himu : inp.st.imu <;> simp [imu_branch, himu] at h <;>
      (obtain ⟨rfl, h2⟩ := h) <;> decide
  case true =>
  simp only [if_true] at h
  cases hsc : inp.scanComplete <;> rw [hsc] at h
  case false =>
    cases himu : inp.st.imu <;> simp [imu_branch, himu] at h <;>
      (obtain ⟨rfl, h2⟩ := h) <;> decide
  case true =>
  simp only [if_true] at h
  rcases hfw : frame_write inp.scan inp.mouse s.bmp with _ | ⟨b2, pr2⟩ <;>
    rw [hfw] at h
  · simp at h
  · by_cases hbtn : inp.mouse.btn ≠ 0 <;>
      cases himu : inp.st.imu <;>
      simp [imu_branch, himu, hbtn] at h <;>
      (obtain ⟨rfl, h2⟩ := h) <;> decide

theorem render_step_fatalIsLast (inp : PollInput) (s : LoopSt) :
    fatalIsLast (render_step inp s).1 = true := by
  unfold render_step
  cases herr : inp.st.err
  case true => rfl
  case false =>
  simp only [Bool.false_eq_true, if_false]
  cases hlid : inp.st.lidar
  case false =>
    simp only [Bool.false_eq_true, if_false]
    cases himu : inp.st.imu <;> simp [imu_branch, himu] <;> decide
  case true =>
  simp only [if_true]
  cases hread : inp.readOk
  case false => rfl
  case true =>
  simp only [Bool.true_eq_false, if_false]
  cases hbc : inp.batchComplete
  case false =>
    simp only [Bool.false_eq_true, if_false]
    cases himu : inp.st.imu <;> simp [imu_branch, himu] <;> decide
  case true =>
  simp only [if_true]
  cases hsc : inp.scanComplete
  case false =>
    simp only [Bool.false_eq_true, if_false]
    cases himu : inp.st.imu <;> simp [imu_branch, himu] <;> decide
  case true =>
  simp only [if_true]
  rcases hfw : frame_write inp.scan inp.mouse s.bmp with _ | ⟨b2, pr2⟩ <;>
    simp only [hfw]
  · rfl
  · by_cases hbtn : inp.mouse.btn ≠ 0 <;>
      cases himu : inp.st.imu <;>
      simp [imu_branch, himu, hbtn] <;> decide

theorem viz_step_next_no_fatal (inp : PollInput) (s : VizSt) (t : List Call)
    (s1 : VizSt) (h : viz_step inp s = (t, .next s1)) :
    ∀ c ∈ t, isFatalCall c = false := by
  unfold viz_step at h
  cases herr : inp.st.err <;> rw [herr] at h
  case true => simp at h
  case false =>
  cases hlid : inp.st.lidar <;> rw [hlid] at h
  case false =>
    cases himu : inp.st.imu <;> simp [viz_imu_branch, himu] at h <;>
      (obtain ⟨rfl, h2⟩ := h) <;> decide
  case true =>
  cases hread : inp.readOk <;> rw [hread] at h
  case false => simp at h
  case true =>
  simp only [Bool.true_eq_false, if_false] at h
  cases hbc : inp.batchComplete <;> rw [hbc] at h
  case false =>
    cases himu : inp.st.imu <;> simp [viz_imu_branch, himu] at h <;>
      (obtain ⟨rfl, h2⟩ := h) <;> decide
  case true =>
  simp only [if_true] at h
  cases hsc : inp.scanComplete <;> rw [hsc] at h <;>
    cases himu : inp.st.imu <;> simp [viz_imu_branch, himu] at h <;>
      (obtain ⟨rfl, h2⟩ := h) <;> decide

theorem viz_step_fatalIsLast (inp : PollInput) (s : VizSt) :
    fatalIsLast (viz_step inp s).1 = true := by
  unfold viz_step
  cases herr : inp.st.err
  case true => rfl
  case false =>
  simp only [Bool.false_eq_true, if_false]
  cases hlid : inp.st.lidar
  case false =>
    simp only [Bool.false_eq_true, if_false]
    cases himu : inp.st.imu <;> simp [viz_imu_branch, himu] <;> decide
  case true =>
  simp only [if_true]
  cases hread : inp.readOk
  case false => rfl
  case true =>
  simp only [Bool.true_eq_false, if_false]
  cases hbc : inp.batchComplete
  case false =>
    simp only [Bool.false_eq_true, if_false]
    cases himu : inp.st.imu <;> simp [viz_imu_branch, himu] <;> decide
  case true =>
  simp only [if_true]
  cases hsc : inp.scanComplete <;>
    cases himu : inp.st.imu <;> simp [viz_imu_branch, himu] <;> decide

theorem fatalIsLast_append (t u : List Call)
    (ht : ∀ c ∈ t, isFatalCall c = false) :
    fatalIsLast (t ++ u) = fatalIsLast u := by
  induction t with
  | nil => rfl
  | cons a t ih =>
    rw [List.cons_append]
    show (if isFatalCall a then (t ++ u).isEmpty else fatalIsLast (t ++ u)) = _
    rw [ht a (List.mem_cons_self a t), if_neg (by simp)]
    exact ih (fun c hc => ht c (List.mem_cons_of_mem a hc))

theorem render_run_fatalIsLast (inputs : List PollInput) (s : LoopSt) :
    fatalIsLast (render_run inputs s).2.1 = true := by
  induction inputs generalizing s with
  | nil => rfl
  | cons inp rest ih =>
    unfold render_run
    rcases hstep : render_step inp s with ⟨t, r⟩
    cases r with
    | fatal f =>
      simp only [hstep]
      have h := render_step_fatalIsLast inp s
      rw [hstep] at h
      exact h
    | undef =>
      simp only [hstep]
      have h := render_step_fatalIsLast inp s
      rw [hstep] at h
      exact h
    | next s1 pr =>
      simp only [hstep]
      rw [fatalIsLast_append t _ (render_step_next_no_fatal inp s t s1 pr hstep)]
      exact ih s1

theorem viz_run_fatalIsLast (inputs : List PollInput) (s : VizSt) :
    fatalIsLast (viz_run inputs s).2.1 = true := by
  induction inputs generalizing s with
  | nil => rfl
  | cons inp rest ih =>
    unfold viz_run
    rcases hstep : viz_step inp s with ⟨t, r⟩
    cases r with
    | fatal f =>
      simp only [hstep]
      have h := viz_step_fatalIsLast inp s
      rw [hstep] at h
      exact h
    | next s1 =>
      simp only [hstep]
      rw [fatalIsLast_append t _ (viz_step_next_no_fatal inp s t s1 hstep)]
      exact ih s1

/-! ### Constant scans -/

theorem scanMinMax_const (s : LidarScan) (hw : 0 < s.w) (hh : 0 < s.h)
    (heq : ∀ x, x < s.w → ∀ y, y < s.h → s.img y x = s.img 0 0) :
    scanMinMax s = (toInt32 (s.img 0 0), toInt32 (s.img 0 0)) := by
  have hvals : ∀ v ∈ scanVals s, v = toInt32 (s.img 0 0) := by
    intro v hv
    rcases mem_scanVals_val s v hv with ⟨x, hx, y, hy, hveq⟩
    rw [hveq, heq x hx y hy]
  have hc : toInt32 (s.img 0 0) ∈ scanVals s := val_mem_scanVals s 0 0 hw hh
  rw [scanMinMax_eq_foldl]
  refine Prod.ext ?_ ?_ <;> simp only []
  · rcases foldl_min_eq_init_or_mem (scanVals s) int32Max with h | h
    · have h1 := foldl_min_le_mem (scanVals s) int32Max _ hc
      have h2 := toInt32_ub (s.img 0 0)
      rw [h] at h1 ⊢
      unfold int32Max at h1 ⊢
      omega
    · exact hvals _ h
  · rcases foldl_max_eq_init_or_mem (scanVals s) int32Min with h | h
    · have h1 := mem_le_foldl_max (scanVals s) int32Min _ hc
      have h2 := toInt32_lb (s.img 0 0)
      rw [h] at h1 ⊢
      unfold int32Min at h1 ⊢
      omega
    · exact hvals _ h

/-! ### Claim theorems -/

/-- C2 counterexample: `view_tigr`'s `main`, invoked without the sensor
hostname argument (`argc = 1`), prints no usage message and performs no
early exit — there is no argument check in its source, refuting the claim
that every example program prints usage and exits. -/
theorem claim2_counterexample :
    (view_tigr_usage 1).printsUsage = false ∧ (view_tigr_usage 1).exit = none :=
  ⟨rfl, rfl⟩

/-- C2 (amended): only `lidar_view_example` checks its arguments: invoked
with no arguments it prints the usage message and exits with status 0;
with any other argument count outside {2, 3} it prints the usage message
and exits with status 1; with 2 or 3 arguments it proceeds.  `view_tigr`
performs no argument check and never prints usage, for any argument
count. -/
theorem claim2_usage (argc : Nat) :
    lidar_view_usage 1 = ⟨true, some 0⟩
    ∧ (argc ≠ 1 → argc ≠ 2 → argc ≠ 3 → lidar_view_usage argc = ⟨true, some 1⟩)
    ∧ lidar_view_usage 2 = ⟨false, none⟩
    ∧ lidar_view_usage 3 = ⟨false, none⟩
    ∧ view_tigr_usage argc = ⟨false, none⟩ := by
  refine ⟨rfl, fun h1 h2 h3 => ?_, rfl, rfl, rfl⟩
  simp [lidar_view_usage, h1, h2, h3, EXIT_FAILURE]

/-- Witness for the amended C2 at argument count 5. -/
theorem claim2_witness : lidar_view_usage 5 = ⟨true, some 1⟩ :=
  (claim2_usage 5).2.1 (by decide) (by decide) (by decide)

/-- C3: for any nonempty scan whose channel values are all equal
(max = min), `scan_to_bmp` reaches the division `value /= (max - min)`
with divisor zero — no guard skips or alters the normalization, so the
division-by-zero branch (modelled as `none`) is taken. -/
theorem claim3_div_by_zero (s : LidarScan) (bmp : Tigr)
    (hw : 0 < s.w) (hh : 0 < s.h)
    (heq : ∀ x, x < s.w → ∀ y, y < s.h → s.img y x = s.img 0 0) :
    scan_to_bmp s bmp = none := by
  have hmm := scanMinMax_const s hw hh heq
  unfold scan_to_bmp
  simp only [hmm]
  rw [sub_self]
  have hw0 : wrap32 0 = 0 := by decide
  rw [hw0]
  cases hL : scanIndices s.w s.h with
  | nil =>
    exfalso
    have hmem : ((0, 0) : Nat × Nat) ∈ scanIndices s.w s.h :=
      (mem_scanIndices s.w s.h 0 0).mpr ⟨hw, hh⟩
    rw [hL] at hmem
    cases hmem
  | cons a t =>
    exact foldlM_writeStep_none s (toInt32 (s.img 0 0)) 0 rfl a t bmp

/-- Witness for C3: the constant 2×2 scan hits the division by zero. -/
theorem claim3_witness : scan_to_bmp constScan cexBmp = none :=
  claim3_div_by_zero constScan cexBmp (by decide) (by decide) (by decide)

/-- C7: the IMU branch reads the IMU packet into the scratch buffer and
discards it: the shared bitmap (resp. the cloud state) and everything
except the scratch buffer are unchanged, in both example programs. -/
theorem claim7_imu_discard (inp : PollInput) (s : LoopSt) (sv : VizSt) :
    (imu_branch inp s).2.bmp = s.bmp
    ∧ (inp.st.imu = true →
        imu_branch inp s = ([.readImu], ⟨s.bmp, inp.imuPacket⟩))
    ∧ (inp.st.imu = false → imu_branch inp s = ([], s))
    ∧ (viz_imu_branch inp sv).2.cloudSet = sv.cloudSet
    ∧ (viz_imu_branch inp sv).2.keySet = sv.keySet
    ∧ (inp.st.imu = true →
        viz_imu_branch inp sv
          = ([.readImu], ⟨sv.cloudSet, sv.keySet, inp.imuPacket⟩))
    ∧ (inp.st.imu = false → viz_imu_branch inp sv = ([], sv)) := by
  unfold imu_branch viz_imu_branch
  cases himu : inp.st.imu <;> simp

/-- Witness for C7: an IMU-only poll result leaves the bitmap untouched and
replaces only the scratch buffer. -/
theorem claim7_witness :
    imu_branch imuInput initLoopSt = ([.readImu], ⟨initLoopSt.bmp, [9, 9]⟩) :=
  (claim7_imu_discard imuInput initLoopSt initVizSt).2.1 rfl

/-- C8: in every interleaving of the acquisition thread and the display
loop allowed by the mutex semantics, the two critical sections (the frame
write `scan_to_bmp`/`print_range` and the blit) are mutually exclusive, so
the display loop never observes the shared bitmap while a write is in
progress. -/
theorem claim8_mutual_exclusion (c : Config) (h : Reach c) :
    ¬(writerInCrit c ∧ readerInCrit c) := by
  intro hcrit
  have hi := reach_inv c h
  have h1 := hi.2.2.1 hcrit.1
  have h2 := hi.2.2.2 hcrit.2
  rw [h1] at h2
  exact Tid.noConfusion (Option.some.inj h2)

/-- Witness for C8 at the reachable configuration where the writer has just
acquired the lock. -/
theorem claim8_witness :
    ¬(writerInCrit ⟨1, 0, some Tid.writer⟩
      ∧ readerInCrit ⟨1, 0, some Tid.writer⟩) :=
  claim8_mutual_exclusion ⟨1, 0, some Tid.writer⟩
    (Reach.step initConfig ⟨1, 0, some Tid.writer⟩ Reach.init
      (LockStep.writer initConfig Act.lock rfl rfl))

/-- C4: when the mouse button is down, the frame-write step follows
`scan_to_bmp` with `print_range`; at in-bounds cursor coordinates the pixel
at `(x, y)` is set to the highlight color `(0xFF, 0, 0, 255)` and the raw
channel value is printed, while at out-of-bounds coordinates `print_range`
returns without writing a pixel and without printing. -/
theorem claim4_mouse_probe (s : LidarScan) (m : tigr_mouse_t) (bmp b1 : Tigr)
    (hbtn : m.btn ≠ 0) (hsb : scan_to_bmp s bmp = some b1) :
    frame_write s m bmp = some (print_range s b1 m.x m.y)
    ∧ (0 ≤ m.x → m.x < (s.w : Int) → 0 ≤ m.y → m.y < (s.h : Int) →
        (print_range s b1 m.x m.y).1.pix (m.y * (b1.w : Int) + m.x).toNat
            = ⟨0xFF, 0, 0, 255⟩
        ∧ (print_range s b1 m.x m.y).2
            = some (m.x, m.y, toInt32 (s.img m.y.toNat m.x.toNat)))
    ∧ (m.x < 0 ∨ (s.w : Int) ≤ m.x ∨ m.y < 0 ∨ (s.h : Int) ≤ m.y →
        print_range s b1 m.x m.y = (b1, none)) := by
  refine ⟨?_, ?_, ?_⟩
  · unfold frame_write
    rw [hsb]
    show (if m.btn ≠ 0 then some (print_range s b1 m.x m.y)
        else some (b1, none)) = some (print_range s b1 m.x m.y)
    rw [if_pos hbtn]
  · intro hx0 hxw hy0 hyh
    unfold print_range
    rw [if_neg (by omega), if_neg (by omega)]
    refine ⟨?_, rfl⟩
    show (if (m.y * (b1.w : Int) + m.x).toNat = (m.y * (b1.w : Int) + m.x).toNat
        then (⟨0xFF, 0, 0, 255⟩ : TPixel) else b1.pix _) = ⟨0xFF, 0, 0, 255⟩
    rw [if_pos rfl]
  · intro hoob
    unfold print_range
    by_cases h1 : m.x < 0 ∨ (s.w : Int) ≤ m.x
    · rw [if_pos h1]
    · rw [if_neg h1, if_pos (by
        rcases hoob with h | h | h | h
        · exact absurd (Or.inl h) h1
        · exact absurd (Or.inr h) h1
        · exact Or.inl h
        · exact Or.inr h)]

/-- Witness for C4: with the button held at the in-bounds coordinate
(0, 1) of the 1×2 test scan, the frame write highlights that pixel and
prints its raw value. -/
theorem claim4_witness :
    frame_write goodScan probeMouse cexBmp
      = some (print_range goodScan ((scan_to_bmp goodScan cexBmp).getD cexBmp)
          probeMouse.x probeMouse.y)
    ∧ (print_range goodScan ((scan_to_bmp goodScan cexBmp).getD cexBmp)
          probeMouse.x probeMouse.y).2
      = some (probeMouse.x, probeMouse.y, 1) := by
  have h := claim4_mouse_probe goodScan probeMouse cexBmp
    ((scan_to_bmp goodScan cexBmp).getD cexBmp) (by decide) (by rfl)
  exact ⟨h.1, (h.2.1 (by decide) (by decide) (by decide) (by decide)).2⟩

theorem foldl_writeStep_alpha (s : LidarScan) (mn d : Int) :
    ∀ (l : List (Nat × Nat)) (b : Tigr) (i : Nat),
      (l.foldl (writeStep s mn d) b).pix i = b.pix i
        ∨ ((l.foldl (writeStep s mn d) b).pix i).a = 255 := by
  intro l
  induction l with
  | nil => intro b i; left; rfl
  | cons a t ih =>
    intro b i
    rw [List.foldl_cons]
    rcases ih (writeStep s mn d b a) i with h | h
    · rw [h]
      by_cases hc : i = a.2 * b.w + a.1
      · right
        show (if i = a.2 * b.w + a.1
            then grayPix (toByte (normColor mn d (s.img a.2 a.1)))
            else b.pix i).a = 255
        rw [if_pos hc]
        rfl
      · left
        show (if i = a.2 * b.w + a.1
            then grayPix (toByte (normColor mn d (s.img a.2 a.1)))
            else b.pix i) = b.pix i
        rw [if_neg hc]
    · right; exact h

/-- C9: every pixel touched by `scan_to_bmp` or by `print_range` is written
with alpha 255: after a frame write, every pixel either still holds its
previous value or is fully opaque. -/
theorem claim9_alpha (s : LidarScan) (bmp b1 : Tigr) (x y : Int) (i : Nat)
    (hsb : scan_to_bmp s bmp = some b1) :
    (b1.pix i = bmp.pix i ∨ (b1.pix i).a = 255)
    ∧ ((print_range s bmp x y).1.pix i = bmp.pix i
        ∨ ((print_range s bmp x y).1.pix i).a = 255) := by
  constructor
  · unfold scan_to_bmp at hsb
    by_cases hd : wrap32 ((scanMinMax s).2 - (scanMinMax s).1) = 0
    · cases hL : scanIndices s.w s.h with
      | nil =>
        rw [hL] at hsb
        have hb : bmp = b1 := Option.some.inj hsb
        rw [← hb]
        left
        rfl
      | cons a t =>
        rw [hL, foldlM_writeStep_none s (scanMinMax s).1 _ hd a t bmp] at hsb
        cases hsb
    · rw [foldlM_writeStep_some s (scanMinMax s).1 _ hd] at hsb
      have hb : b1 = (scanIndices s.w s.h).foldl
          (writeStep s (scanMinMax s).1
            (wrap32 ((scanMinMax s).2 - (scanMinMax s).1))) bmp :=
        (Option.some.inj hsb).symm
      rw [hb]
      exact foldl_writeStep_alpha s _ _ (scanIndices s.w s.h) bmp i
  · unfold print_range
    by_cases h1 : x < 0 ∨ (s.w : Int) ≤ x
    · rw [if_pos h1]; left; rfl
    · rw [if_neg h1]
      by_cases h2 : y < 0 ∨ (s.h : Int) ≤ y
      · rw [if_pos h2]; left; rfl
      · rw [if_neg h2]
        by_cases hc : i = (y * (bmp.w : Int) + x).toNat
        · right
          show (if i = (y * (bmp.w : Int) + x).toNat
              then (⟨0xFF, 0, 0, 255⟩ : TPixel) else bmp.pix i).a = 255
          rw [if_pos hc]
        · left
          show (if i = (y * (bmp.w : Int) + x).toNat
              then (⟨0xFF, 0, 0, 255⟩ : TPixel) else bmp.pix i) = bmp.pix i
          rw [if_neg hc]

/-- Witness for C9 at the 1×2 test scan, pixel index 0 and an
out-of-bounds probe. -/
theorem claim9_witness :
    ((scan_to_bmp goodScan cexBmp).getD cexBmp).pix 0 = cexBmp.pix 0
      ∨ (((scan_to_bmp goodScan cexBmp).getD cexBmp).pix 0).a = 255 :=
  (claim9_alpha goodScan cexBmp ((scan_to_bmp goodScan cexBmp).getD cexBmp)
    0 5 0 (by rfl)).1

/-- C5: the three error conditions — connection failure, sensor error
status, and a short/failed packet read — each print a message and terminate
the process with `EXIT_FAILURE` (code 1), in both example programs; in
particular, an error status on the first poll terminates the run with the
state (and hence the shared frame buffer) untouched: no frame is ever
written. -/
theorem claim5_fatal_errors (inp : PollInput) (rest : List PollInput)
    (s : LoopSt) (sv : VizSt) :
    connect_check false = .error ⟨"Failed to connect", 1⟩
    ∧ (inp.st.err = true →
        render_step inp s
          = ([.fatalCall "Sensor client returned error state!"],
             .fatal ⟨"Sensor client returned error state!", 1⟩)
        ∧ viz_step inp sv
          = ([.fatalCall "Sensor client returned error state!"],
             .fatal ⟨"Sensor client returned error state!", 1⟩)
        ∧ render_run (inp :: rest) s
          = (s, [.fatalCall "Sensor client returned error state!"],
             .fatal ⟨"Sensor client returned error state!", 1⟩)
        ∧ viz_run (inp :: rest) sv
          = (sv, [.fatalCall "Sensor client returned error state!"],
             .fatal ⟨"Sensor client returned error state!", 1⟩))
    ∧ (inp.st.err = false → inp.st.lidar = true → inp.readOk = false →
        render_step inp s
          = ([.readLidar,
              .fatalCall "Failed to read a packet of the expected size!"],
             .fatal ⟨"Failed to read a packet of the expected size!", 1⟩)
        ∧ viz_step inp sv
          = ([.readLidar,
              .fatalCall "Failed to read a packet of the expected size!"],
             .fatal ⟨"Failed to read a packet of the expected size!", 1⟩)) := by
  refine ⟨rfl, fun herr => ?_, fun herr hlid hread => ?_⟩
  · refine ⟨render_step_err inp s herr, viz_step_err inp sv herr, ?_, ?_⟩
    · unfold render_run
      rw [render_step_err inp s herr]
    · unfold viz_run
      rw [viz_step_err inp sv herr]
  · exact ⟨render_step_readfail inp s herr hlid hread,
      viz_step_readfail inp sv herr hlid hread⟩

/-- Witness for C5: an error poll as first input stops the run with the
initial state intact; a failed read is fatal with exit code 1. -/
theorem claim5_witness :
    render_run [errInput] initLoopSt
      = (initLoopSt, [.fatalCall "Sensor client returned error state!"],
         .fatal ⟨"Sensor client returned error state!", 1⟩)
    ∧ render_step readFailInput initLoopSt
      = ([.readLidar,
          .fatalCall "Failed to read a packet of the expected size!"],
         .fatal ⟨"Failed to read a packet of the expected size!", 1⟩) :=
  ⟨((claim5_fatal_errors errInput [] initLoopSt initVizSt).2.1 rfl).2.2.1,
   ((claim5_fatal_errors readFailInput [] initLoopSt initVizSt).2.2
      rfl rfl rfl).1⟩

/-- C6: a short/failed packet read is fatal before the batcher is invoked:
the failing iteration performs only the read and the `FATAL` call (no
`batch` call), and in any run no call whatsoever — in particular no batch
call — follows a `FATAL` call, in both example programs. -/
theorem claim6_no_batch_after_fail (inp : PollInput) (s : LoopSt) (sv : VizSt)
    (inputs : List PollInput) :
    (inp.st.err = false → inp.st.lidar = true → inp.readOk = false →
      render_step inp s
        = ([.readLidar,
            .fatalCall "Failed to read a packet of the expected size!"],
           .fatal ⟨"Failed to read a packet of the expected size!", 1⟩)
      ∧ Call.batch ∉ (render_step inp s).1
      ∧ viz_step inp sv
        = ([.readLidar,
            .fatalCall "Failed to read a packet of the expected size!"],
           .fatal ⟨"Failed to read a packet of the expected size!", 1⟩)
      ∧ Call.batch ∉ (viz_step inp sv).1)
    ∧ fatalIsLast (render_run inputs s).2.1 = true
    ∧ fatalIsLast (viz_run inputs sv).2.1 = true := by
  refine ⟨fun herr hlid hread => ?_, render_run_fatalIsLast inputs s,
    viz_run_fatalIsLast inputs sv⟩
  have h1 := render_step_readfail inp s herr hlid hread
  have h2 := viz_step_readfail inp sv herr hlid hread
  refine ⟨h1, ?_, h2, ?_⟩
  · rw [h1]; decide
  · rw [h2]; decide

/-- Witness for C6: the failed-read input makes no batch call, and a
two-input run has no call after the fatal one. -/
theorem claim6_witness :
    Call.batch ∉ (render_step readFailInput initLoopSt).1
    ∧ fatalIsLast (render_run [readFailInput, imuInput] initLoopSt).2.1
        = true :=
  ⟨((claim6_no_batch_after_fail readFailInput initLoopSt initVizSt
      [readFailInput, imuInput]).1 rfl rfl rfl).2.1,
   (claim6_no_batch_after_fail readFailInput initLoopSt initVizSt
      [readFailInput, imuInput]).2.1⟩

/-- C1 counterexample: the 1×2 scan with channel values 0 and 8421505 has
max > min, yet the pixel at the maximum's coordinate (index 1 = y·w + x
with x = 0, y = 1) receives intensity 2 rather than 255, because
`(v - min) * 255` overflows `int32_t` (the computed intensity is −254
before the `unsigned char` conversion).  This refutes the claim as stated
for scans whose value range exceeds ⌊(2^31 − 1)/255⌋ = 8421504. -/
theorem claim1_counterexample :
    scanMinMax cexScan = (0, 8421505)
    ∧ cexScan.img 1 0 = 8421505
    ∧ normColor 0 8421505 8421505 = -254
    ∧ (scan_to_bmp cexScan cexBmp).map (fun b => ((b.pix 1).r, (b.pix 0).r))
        = some (2, 0)
    ∧ (scan_to_bmp cexScan cexBmp).map (fun b => (b.pix 1).r) ≠ some 255 := by
  exact ⟨by decide, by decide, by decide, by decide, by decide⟩

/-- C1 (amended): for every completed scan whose channel values are not all
equal (computed max > min), all values below `2^31`, and whose value range
`max − min` is at most ⌊(2^31 − 1)/255⌋ = 8421504 (so that
`(v − min) * 255` cannot overflow `int32_t`), `scan_to_bmp` maps every
channel value `v` to the intensity `(v − min) * 255 / (max − min)`, which
lies in [0, 255]; every value lies between the computed minimum and
maximum, a value equal to the minimum maps to intensity 0, and a value
equal to the maximum maps to intensity 255. -/
theorem claim1_normalization (s : LidarScan) (bmp : Tigr) (x y : Nat)
    (hbw : bmp.w = s.w) (hx : x < s.w) (hy : y < s.h)
    (hB : ∀ x, x < s.w → ∀ y, y < s.h → s.img y x < 2147483648)
    (hlt : (scanMinMax s).1 < (scanMinMax s).2)
    (hrange : (scanMinMax s).2 - (scanMinMax s).1 ≤ 8421504) :
    0 ≤ normColor (scanMinMax s).1 ((scanMinMax s).2 - (scanMinMax s).1)
          (s.img y x)
    ∧ normColor (scanMinMax s).1 ((scanMinMax s).2 - (scanMinMax s).1)
          (s.img y x) ≤ 255
    ∧ (scanMinMax s).1.toNat ≤ s.img y x
    ∧ s.img y x ≤ (scanMinMax s).2.toNat
    ∧ (scan_to_bmp s bmp).map (fun b => (b.pix (y * s.w + x)).r)
        = some ((s.img y x - (scanMinMax s).1.toNat) * 255
            / ((scanMinMax s).2.toNat - (scanMinMax s).1.toNat))
    ∧ (s.img y x = (scanMinMax s).1.toNat →
        (scan_to_bmp s bmp).map (fun b => (b.pix (y * s.w + x)).r) = some 0)
    ∧ (s.img y x = (scanMinMax s).2.toNat →
        (scan_to_bmp s bmp).map (fun b => (b.pix (y * s.w + x)).r)
          = some 255) := by
  have hmn0 : 0 ≤ (scanMinMax s).1 := (scanMinMax_range s hB).1
  have hmx31 : (scanMinMax s).2 < 2147483648 := (scanMinMax_range s hB).2
  have hbnd := scanMinMax_bounds s x y hx hy
  rw [toInt32_eq_self _ (hB x hx y hy)] at hbnd
  have hnorm := normColor_good (scanMinMax s).1 (scanMinMax s).2 (s.img y x)
    hmn0 hbnd.1 hbnd.2 hmx31 hrange hlt
  have hpix := scan_to_bmp_pix s bmp x y hbw hx hy hB hlt hrange
  have hdpos : 0 < (scanMinMax s).2.toNat - (scanMinMax s).1.toNat := by omega
  have hrmap : (scan_to_bmp s bmp).map (fun b => (b.pix (y * s.w + x)).r)
      = ((scan_to_bmp s bmp).map (fun b => b.pix (y * s.w + x))).map
          (fun p => p.r) := by
    rw [Option.map_map]
    rfl
  have hr : (scan_to_bmp s bmp).map (fun b => (b.pix (y * s.w + x)).r)
      = some ((s.img y x - (scanMinMax s).1.toNat) * 255
          / ((scanMinMax s).2.toNat - (scanMinMax s).1.toNat)) := by
    rw [hrmap, hpix.1]
    rfl
  refine ⟨?_, ?_, by omega, by omega, hr, ?_, ?_⟩
  · rw [hnorm.1]
    exact Int.natCast_nonneg _
  · rw [hnorm.1]
    exact_mod_cast hnorm.2
  · intro hmin
    rw [hr, hmin, Nat.sub_self, Nat.zero_mul, Nat.zero_div]
  · intro hmax
    rw [hr, hmax, Nat.mul_div_cancel_left 255 hdpos]

/-- Witness for the amended C1 on the 1×2 scan with values 0 and 1: the
minimum maps to intensity 0 and the maximum to intensity 255. -/
theorem claim1_witness :
    (scan_to_bmp goodScan cexBmp).map (fun b => (b.pix (1 * goodScan.w + 0)).r)
      = some 255
    ∧ (scan_to_bmp goodScan cexBmp).map
        (fun b => (b.pix (0 * goodScan.w + 0)).r) = some 0 := by
  have h1 := claim1_normalization goodScan cexBmp 0 1 rfl (by decide)
    (by decide) (by decide) (by decide) (by decide)
  have h0 := claim1_normalization goodScan cexBmp 0 0 rfl (by decide)
    (by decide) (by decide) (by decide) (by decide)
  exact ⟨h1.2.2.2.2.2.2 (by decide), h0.2.2.2.2.2.1 (by decide)⟩

/-- C10: `scan_to_bmp` reads the `uint32_t` channel values into `int32_t`
and computes `(value - min) * 255` in 32-bit signed arithmetic; when all
channel values lie in [0, 2^31) and the computed range `max − min` is at
most ⌊(2^31 − 1)/255⌋ = 8421504, no intermediate overflow occurs and every
stored intensity equals the exact floor `(v − min) * 255 / (max − min)`,
which is at most 255 (stored with `r = g = b` and alpha 255). -/
theorem claim10_exact_normalization (s : LidarScan) (bmp : Tigr) (x y : Nat)
    (hbw : bmp.w = s.w) (hx : x < s.w) (hy : y < s.h)
    (hB : ∀ x, x < s.w → ∀ y, y < s.h → s.img y x < 2147483648)
    (hlt : (scanMinMax s).1 < (scanMinMax s).2)
    (hrange : (scanMinMax s).2 - (scanMinMax s).1 ≤ 8421504) :
    (scan_to_bmp s bmp).map (fun b => b.pix (y * s.w + x))
      = some (grayPix ((s.img y x - (scanMinMax s).1.toNat) * 255
          / ((scanMinMax s).2.toNat - (scanMinMax s).1.toNat)))
    ∧ (s.img y x - (scanMinMax s).1.toNat) * 255
        / ((scanMinMax s).2.toNat - (scanMinMax s).1.toNat) ≤ 255 :=
  scan_to_bmp_pix s bmp x y hbw hx hy hB hlt hrange

/-- Witness for C10 on the 1×2 scan with values 0 and 1. -/
theorem claim10_witness :
    (scan_to_bmp goodScan cexBmp).map (fun b => b.pix (1 * goodScan.w + 0))
      = some (grayPix ((goodScan.img 1 0
          - (scanMinMax goodScan).1.toNat) * 255
          / ((scanMinMax goodScan).2.toNat - (scanMinMax goodScan).1.toNat))) :=
  (claim10_exact_normalization goodScan cexBmp 0 1 rfl (by decide) (by decide)
    (by decide) (by decide) (by decide)).1

end Ouster

